import Mathlib

/-!
Shallow embedding of `src/antlines.py` (antline restyling) and proofs about its
specification.

Modelling conventions:
* Python floats are modelled as rationals (`ℚ`); every numeric constant in the
  source is dyadic, so no rounding is lost on the values the claims speak about.
* The process-global `random` module is modelled as an explicit stream state
  `RngState` (a seed value plus a position); `random.seed(x)` replaces the state
  by `⟨x, 0⟩` and every primitive draw (`randrange`, `choice`, the draw hidden
  in `choice`) consumes one element of an abstract pseudo-random family
  `F : EntVal → ℕ → ℕ` (standing for the Mersenne Twister), advancing the
  position.  All determinism claims are proved for every such family.
* A VMF entity is a finite map from field names to values.  srctools stores
  all fields as strings; values that the algorithm reads back structurally
  (vectors, numbers) are modelled as structured values `EntVal` so that the
  external string formatting/parsing of srctools does not have to be embedded.
* External srctools geometry utilities (`srctools.vmf.overlay_bounds`,
  `Vec.rotate_by_str`) are out of scope per the spec and are taken as
  parameters (a `Geo` record); all theorems hold for every choice of them.
* Fallible operations (`raise ValueError`, `random.choice` on an empty list,
  attribute access on `None`) are modelled with `Except String`.
-/

set_option linter.unusedVariables false

/-- Modelled from the spec: the two antline base material identifiers exposed by
the style-independent constant set (`comp_consts.Antlines`, imported by the
source as `const`), a module that is not among the provided sources.  The
algorithm only compares overlay materials against them, so they are modelled as
two fixed distinct strings (their published values). -/
def Antlines.STRAIGHT : String := "signage/indicator_lights/indicator_lights_floor"

/-- Modelled from the spec: the corner antline base material, see
`Antlines.STRAIGHT`. -/
def Antlines.CORNER : String := "signage/indicator_lights/indicator_lights_corner_floor"

/-- Digit run to a natural number (helper for the decimal parser). -/
def digsToNat (l : List Char) : ℕ := l.foldl (fun a c => 10 * a + (c.toNat - 48)) 0

/-- Unsigned decimal literal parser: models Python `float()` on the plain
decimal forms that appear in the configuration grammar (`"0.25"`, `"1"`,
`".5"`, `"5."`); other accepted exotic Python forms (exponents, `inf`,
whitespace) do not occur in the spec and are treated as failures. -/
def parseUDec (l : List Char) : Option ℚ :=
  let ip := l.takeWhile Char.isDigit
  let rest := l.dropWhile Char.isDigit
  match rest with
  | [] => if ip.isEmpty then none else some (digsToNat ip)
  | '.' :: fp =>
    if fp.all Char.isDigit && !(ip.isEmpty && fp.isEmpty) then
      some ((digsToNat ip : ℚ) + (digsToNat fp : ℚ) / 10 ^ fp.length)
    else none
  | _ => none

/-- Python `float(s)` on decimal literals, with optional sign. -/
def pyFloat (s : String) : Option ℚ :=
  match s.toList with
  | '-' :: r => (parseUDec r).map (fun q => -q)
  | '+' :: r => parseUDec r
  | l => parseUDec l

/-- srctools `conv_float(val, default)`: `float(val)` with a fallback default. -/
def conv_float (val : String) (default : ℚ) : ℚ := (pyFloat val).getD default

/-- srctools `conv_bool(val, default)` restricted to the documented tokens. -/
def conv_bool (val : String) (default : Bool) : Bool :=
  let v := val.map Char.toLower
  if v ∈ (["0", "no", "false", "n", "f"] : List String) then false
  else if v ∈ (["1", "yes", "true", "y", "t"] : List String) then true
  else default

/-- Python `str.split('|')` (accumulator-based; a split always yields at least
one segment, like the Python original). -/
def splitPipeAux : List Char → List Char → List (List Char)
  | acc, [] => [acc.reverse]
  | acc, c :: r =>
    if c = '|' then acc.reverse :: splitPipeAux [] r else splitPipeAux (c :: acc) r

/-- `value.split('|')` from `AntTex.parse`. -/
def splitPipe (s : String) : List String := (splitPipeAux [] s.toList).map List.asString

/-- `AntTex` (antlines.py line 11): a single texture and its parameters. -/
structure AntTex where
  texture : String
  scale : ℚ
  static : Bool
deriving DecidableEq

/-- A property node handed to `AntTex.parse`: either a scalar value or a block
of key/value pairs (the only shapes the source consumes). -/
inductive PropNode where
  | scalar (value : String)
  | block (entries : List (String × String))

/-- srctools `Property` child lookup (`prop['tex']` style, first match). -/
def propLookup (entries : List (String × String)) (k : String) : Option String :=
  (entries.find? (fun p => p.1 = k)).map (fun p => p.2)

/-- srctools `Property.float(key, default)`. -/
def propFloat (entries : List (String × String)) (k : String) (default : ℚ) : ℚ :=
  match propLookup entries k with
  | none => default
  | some v => conv_float v default

/-- srctools `Property.bool(key)` (default `False`). -/
def propBool (entries : List (String × String)) (k : String) : Bool :=
  match propLookup entries k with
  | none => false
  | some v => conv_bool v false

/-- `AntTex.parse` (antlines.py lines 13-47).  The block form reads `tex`
(raising if missing), `scale` (default 0.25) and `static` (default false).
The scalar form splits on `|`: two fields are `scale|texture`, more are
`scale|texture|flags...` with `static` looked up among the flags, otherwise the
single segment is unpacked as the bare texture (`[tex] = vals`, whose
`ValueError` is kept as an explicit error branch). -/
def AntTex.parse : PropNode → Except String AntTex
  | .block entries =>
    match propLookup entries "tex" with
    | none => .error "IndexError: no key tex"
    | some tex => .ok ⟨tex, propFloat entries "scale" 0.25, propBool entries "static"⟩
  | .scalar v =>
    match splitPipe v with
    | [scale_str, tex] => .ok ⟨tex, conv_float scale_str 0.25, false⟩
    | scale_str :: tex :: opts => .ok ⟨tex, conv_float scale_str 0.25, decide ("static" ∈ opts)⟩
    | [tex] => .ok ⟨tex, conv_float "0.25" 0.25, false⟩
    | [] => .error "ValueError: not enough values to unpack"

/-- srctools `Vec`: a 3-vector of (modelled) floats. -/
structure Vec3Q where
  x : ℚ
  y : ℚ
  z : ℚ
deriving DecidableEq

/-- Structured entity field values, see the header comment. -/
inductive EntVal where
  | str (s : String)
  | num (q : ℚ)
  | vec (v : Vec3Q)
deriving DecidableEq

/-- Axis names as returned by srctools `Vec.axis()`. -/
inductive Axis where
  | x
  | y
  | z
deriving DecidableEq

/-- Component read `v[axis]`. -/
def Vec3Q.getAx : Vec3Q → Axis → ℚ
  | v, .x => v.x
  | v, .y => v.y
  | v, .z => v.z

/-- Component write `v[axis] = q`. -/
def Vec3Q.setAx : Vec3Q → Axis → ℚ → Vec3Q
  | v, .x, q => ⟨q, v.y, v.z⟩
  | v, .y, q => ⟨v.x, q, v.z⟩
  | v, .z, q => ⟨v.x, v.y, q⟩

/-- Componentwise subtraction (`bbox_max - bbox_min`). -/
def Vec3Q.sub (a b : Vec3Q) : Vec3Q := ⟨a.x - b.x, a.y - b.y, a.z - b.z⟩

/-- Python `max(vec)`: the largest component. -/
def Vec3Q.maxComp (v : Vec3Q) : ℚ := max v.x (max v.y v.z)

/-- srctools `Vec.axis()`: the axis of a vector with a single nonzero
component (first nonzero component for the degenerate inputs the external
utility would reject). -/
def Vec3Q.axis (v : Vec3Q) : Axis :=
  if v.x ≠ 0 then .x else if v.y ≠ 0 then .y else .z

/-- An entity: a finite map from field names to values. -/
abbrev Entity := String → Option EntVal

/-- Field assignment `ent[k] = v`. -/
def Entity.set (e : Entity) (k : String) (v : EntVal) : Entity :=
  fun k' => if k' = k then some v else e k'

/-- Field removal `del ent[k]`. -/
def Entity.del (e : Entity) (k : String) : Entity :=
  fun k' => if k' = k then none else e k'

/-- Raw field read `ent[k]` (missing fields read as the empty string in
srctools). -/
def Entity.look (e : Entity) (k : String) : EntVal := (e k).getD (.str "")

/-- Field read as a string (srctools stores strings; structured model values in
a string position read as the parse-failure default `""`). -/
def Entity.fstr (e : Entity) (k : String) : String :=
  match e k with
  | some (.str s) => s
  | _ => ""

/-- `Vec.from_str(ent[k])`: field read as a vector, defaulting to the origin
vector on anything that is not a vector (srctools' parse-failure default). -/
def Entity.fvec (e : Entity) (k : String) : Vec3Q :=
  match e k with
  | some (.vec v) => v
  | _ => ⟨0, 0, 0⟩

/-- `AntTex.apply` (antlines.py lines 49-54): set `material`, set the
lengthwise repeat field `endu`, and for static entries delete `targetname`. -/
def AntTex.apply (t : AntTex) (overlay : Entity) : Entity :=
  let e := (overlay.set "material" (.str t.texture)).set "endu" (.num t.scale)
  if t.static then e.del "targetname" else e

/-- `AntType` (antlines.py line 57): the four texture lists and the broken
chance. -/
structure AntType where
  tex_straight : List AntTex
  tex_corner : List AntTex
  broken_straight : List AntTex
  broken_corner : List AntTex
  broken_chance : ℚ

/-- `AntType.__init__` (antlines.py lines 63-79): a zero broken chance forces
both broken lists empty. -/
def AntType.init (tex_straight tex_corner broken_straight broken_corner : List AntTex)
    (broken_chance : ℚ) : AntType :=
  if broken_chance = 0 then ⟨tex_straight, tex_corner, [], [], broken_chance⟩
  else ⟨tex_straight, tex_corner, broken_straight, broken_corner, broken_chance⟩

/-- `AntType.default` (antlines.py lines 103-110). -/
def AntType.defaultPeti : AntType :=
  AntType.init [⟨Antlines.STRAIGHT, 0.25, false⟩] [⟨Antlines.CORNER, 1, false⟩] [] [] 0

/-- The abstract pseudo-random family: seed value and draw position to drawn
natural number.  Stands for the Mersenne Twister underlying Python `random`. -/
abbrev PRNG := EntVal → ℕ → ℕ

/-- The state of the global `random` module: the seed it was last seeded with
and how many primitive draws have happened since. -/
structure RngState where
  seedv : EntVal
  idx : ℕ

/-- One primitive draw from the stream. -/
def randDraw (F : PRNG) (s : RngState) : ℕ × RngState :=
  (F s.seedv s.idx, ⟨s.seedv, s.idx + 1⟩)

/-- `random.randrange(100) < chance`: one Bernoulli trial against the shared
stream. -/
def bern (F : PRNG) (chance : ℚ) (s : RngState) : Bool × RngState :=
  let p := randDraw F s
  (decide (((p.1 % 100 : ℕ) : ℚ) < chance), p.2)

/-- `random.choice(l)`: uniform choice consuming one draw; raises on an empty
sequence exactly like Python. -/
def rchoice (F : PRNG) (l : List AntTex) (s : RngState) : Except String (AntTex × RngState) :=
  match l with
  | [] => .error "Cannot choose from an empty sequence"
  | x :: xs =>
    let p := randDraw F s
    .ok ((x :: xs).get ⟨p.1 % (xs.length + 1), Nat.mod_lt _ (Nat.succ_pos _)⟩, p.2)

/-- Truncation toward zero, Python `int()` on a float. -/
def pyInt (q : ℚ) : ℤ := if 0 ≤ q then ⌊q⌋ else ⌈q⌉

/-- The `for i in range(1, int(dist))` loop of `broken_antline_iter`
(antlines.py lines 121-126), with `k` the number of remaining iterations and
`i` the current cell index.  Returns the yielded runs together with the final
`run_start`/`last_type` and the stream state. -/
def brokenLoop (F : PRNG) (chance : ℚ) :
    ℕ → ℕ → ℕ → Bool → RngState → List (ℕ × ℕ × Bool) × ℕ × Bool × RngState
  | 0, _, run_start, last, s => ([], run_start, last, s)
  | k + 1, i, run_start, last, s =>
    if (bern F chance s).1 ≠ last then
      ((run_start, i, last) ::
          (brokenLoop F chance k (i + 1) i (bern F chance s).1 (bern F chance s).2).1,
        (brokenLoop F chance k (i + 1) i (bern F chance s).1 (bern F chance s).2).2)
    else
      brokenLoop F chance k (i + 1) run_start last (bern F chance s).2

/-- `broken_antline_iter(dist, chance)` (antlines.py lines 113-129), run to
completion as a standalone iterator: the initial trial fixes the first run's
tag, the loop yields a run at each tag change, and the final run always closes
at `int(dist)`.  Total (the Python generator raises nothing). -/
def broken_antline_iter (F : PRNG) (dist chance : ℚ) (s : RngState) :
    List (ℤ × ℤ × Bool) × RngState :=
  let d : ℤ := pyInt dist
  let p := bern F chance s
  let r := brokenLoop F chance (d - 1).toNat 1 0 p.1 p.2
  ((r.1.map fun q => ((q.1 : ℤ), (q.2.1 : ℤ), q.2.2)) ++ [((r.2.1 : ℤ), d, r.2.2.1)],
    r.2.2.2)

/-- External geometry collaborators (out of scope per the spec):
`srctools.vmf.overlay_bounds` and `Vec.rotate_by_str`. -/
structure Geo where
  bounds : Entity → Vec3Q × Vec3Q
  rotate : EntVal → Vec3Q → Vec3Q

/-- The document-visible outcome of one `style_antline` call: the fragment
sections added (each with the generator run it came from), the original overlay
if it was kept (restyled in place; `none` means `over.remove()` ran), and the
final stream state. -/
structure StyleResult where
  sections : List ((ℤ × ℤ × Bool) × Entity)
  survivor : Option Entity
  rng : RngState

/-- The `for axis in '0123'` body (antlines.py lines 192-198): rewrite one uv
corner's lengthwise (local `y`) coordinate to `±8 * sect_length`, matching the
sign of the current value. -/
def uvFix (len : ℚ) (e : Entity) (k : String) : Entity :=
  let pos := e.fvec k
  e.set k (.vec ⟨pos.x, if pos.y < 0 then -8 * len else 8 * len, pos.z⟩)

/-- All four uv corners rewritten in order. -/
def uvRewrite (e : Entity) (len : ℚ) : Entity :=
  (["uv0", "uv1", "uv2", "uv3"] : List String).foldl (uvFix len) e

/-- One iteration of the fragmentation loop body (antlines.py lines 172-200)
for the run `(mn, mx)`: clone the original (`over.copy()` copies every field),
set `startV`, recompute `origin`/`basisorigin` from the minimum-bound point,
rewrite the uv corners, and apply a randomly chosen entry of `sect_mats`. -/
def mkSection (F : PRNG) (over : Entity) (ax : Axis) (minO : Vec3Q)
    (sect_mats : List AntTex) (mn mx : ℤ) (s : RngState) :
    Except String (Entity × RngState) :=
  let sect_length : ℤ := mx - mn
  let e1 := over.set "startV" (.num (sect_length : ℚ))
  let sect_origin := minO.setAx ax (minO.getAx ax + (((mn : ℚ) + (mx : ℚ)) / 2) * 16)
  let e2 := (e1.set "basisorigin" (.vec sect_origin)).set "origin" (.vec sect_origin)
  let e3 := uvRewrite e2 (sect_length : ℚ)
  match rchoice F sect_mats s with
  | .error msg => .error msg
  | .ok (t, s') => .ok (t.apply e3, s')

/-- The fragmentation branch, fused with the generator it iterates
(antlines.py lines 113-129 and 168-200).  `broken_antline_iter` is a lazy
generator, so its `randrange` trials interleave with the `random.choice` draw
the loop body performs for each yielded run; this fused recursion reproduces
that exact draw order: trials advance until a tag change, the section for the
closed run is built (consuming one choice draw), and the loop resumes.  `k` is
the number of remaining trials and `dEnd` the cell count `int(length // 16)`
the final run closes at. -/
def fragLoop (F : PRNG) (chance : ℚ) (over : Entity) (ax : Axis) (minO : Vec3Q)
    (mats broken_mats : List AntTex) (dEnd : ℤ) :
    ℕ → ℕ → ℕ → Bool → RngState →
      Except String (List ((ℤ × ℤ × Bool) × Entity) × RngState)
  | 0, _, run_start, last, s =>
    match mkSection F over ax minO (if last then broken_mats else mats) run_start dEnd s with
    | .error msg => .error msg
    | .ok (ent, s') => .ok ([(((run_start : ℤ), dEnd, last), ent)], s')
  | k + 1, i, run_start, last, s =>
    if (bern F chance s).1 ≠ last then
      match mkSection F over ax minO (if last then broken_mats else mats) run_start i
          (bern F chance s).2 with
      | .error msg => .error msg
      | .ok (ent, s2) =>
        match fragLoop F chance over ax minO mats broken_mats dEnd k (i + 1) i
            (bern F chance s).1 s2 with
        | .error msg => .error msg
        | .ok (l, s3) => .ok ((((run_start : ℤ), (i : ℤ), last), ent) :: l, s3)
    else fragLoop F chance over ax minO mats broken_mats dEnd k (i + 1) run_start last
      (bern F chance s).2

/-- `random.choice(mats).apply(over)` at the end of `style_antline`
(antlines.py line 205): the single-overlay restyle. -/
def finalChoice (F : PRNG) (over : Entity) (mats : List AntTex) (s : RngState) :
    Except String StyleResult :=
  match rchoice F mats s with
  | .error msg => .error msg
  | .ok (t, s') => .ok ⟨[], some (t.apply over), s'⟩

/-- `style_antline` after classification (antlines.py lines 153-205): either
the broken-chance machinery (short-strip single draw, or fragmentation for
`length > 48`) or the direct restyle. -/
def styleRest (geo : Geo) (F : PRNG) (over : Entity) (c : AntType)
    (mats broken_mats : List AntTex) (s0 : RngState) : Except String StyleResult :=
  if c.broken_chance ≠ 0 then
    let b := geo.bounds over
    let length := (b.2.sub b.1).maxComp
    let long_axis := (geo.rotate (over.look "angles") ⟨0, 1, 0⟩).axis
    if length ≤ 48 then
      let p := bern F c.broken_chance s0
      finalChoice F over (if p.1 then broken_mats else mats) p.2
    else
      let origin := over.fvec "origin"
      let min_origin := origin.setAx long_axis (origin.getAx long_axis - length / 2)
      let d : ℤ := ⌊length / 16⌋
      let p := bern F c.broken_chance s0
      match fragLoop F c.broken_chance over long_axis min_origin mats broken_mats d
          (d - 1).toNat 1 0 p.1 p.2 with
      | .error msg => .error msg
      | .ok (l, s') => .ok ⟨l, none, s'⟩
  else finalChoice F over mats s0

/-- `style_antline(over, conf, floor_conf)` (antlines.py lines 132-205).
`g` is the incoming state of the global `random` module; the call begins with
`random.seed(over['origin'])`, which discards it.  `floor_conf` is `Option`al:
the Python parameter may be `None`, in which case the attribute accesses
`conf.tex_straight` / `conf.tex_corner` after floor substitution raise, which
the `none` branches model.  Classification failure raises
`ValueError('"{}" is not an antline!'.format(...))`. -/
def style_antline (geo : Geo) (F : PRNG) (g : RngState) (over : Entity)
    (conf : AntType) (floor_conf : Option AntType) : Except String StyleResult :=
  let s0 : RngState := ⟨over.look "origin", 0⟩
  let sel := if (over.fvec "basisNormal").z ≠ 0 then floor_conf else some conf
  if over.fstr "material" = Antlines.STRAIGHT then
    match sel with
    | none => .error "AttributeError: NoneType object has no attribute tex_straight"
    | some c => styleRest geo F over c c.tex_straight c.broken_straight s0
  else if over.fstr "material" = Antlines.CORNER then
    match sel with
    | none => .error "AttributeError: NoneType object has no attribute tex_corner"
    | some c => styleRest geo F over c c.tex_corner c.broken_corner s0
  else
    .error ("\"" ++ over.fstr "material" ++ "\" is not an antline!")

/-- Runs as they come out of `brokenLoop`, closed with the mandatory final
`yield run_start, int(dist), last_type`. -/
def closeRuns (out : List (ℕ × ℕ × Bool) × ℕ × Bool × RngState) (e : ℕ) :
    List (ℕ × ℕ × Bool) :=
  out.1 ++ [(out.2.1, e, out.2.2.1)]

/-- A well-formed run decomposition: `RunChain a t b l` says `l` is a nonempty
sequence of runs starting at `a` with first tag `t`, each run nonempty,
contiguous, with strictly alternating tags, closing at `b`. -/
inductive RunChain : ℕ → Bool → ℕ → List (ℕ × ℕ × Bool) → Prop where
  | single (a b : ℕ) (t : Bool) (hab : a < b) : RunChain a t b [(a, b, t)]
  | cons (a m b : ℕ) (t u : Bool) (l : List (ℕ × ℕ × Bool)) (ham : a < m) (htu : t ≠ u)
      (hrest : RunChain m u b l) : RunChain a t b ((a, m, t) :: l)

/-- The geometric field contents of one fragment section for run `(mn, mx)`,
relative to the minimum-bound point `minO` and the lengthwise axis `ax`:
exactly what lines 182-198 write into the clone. -/
def SectionFields (over : Entity) (ax : Axis) (minO : Vec3Q) (mn mx : ℤ)
    (ent : Entity) : Prop :=
  ent "startV" = some (.num ((mx - mn : ℤ) : ℚ)) ∧
  ent "origin" =
    some (.vec (minO.setAx ax (minO.getAx ax + (((mn : ℚ) + (mx : ℚ)) / 2) * 16))) ∧
  ent "basisorigin" =
    some (.vec (minO.setAx ax (minO.getAx ax + (((mn : ℚ) + (mx : ℚ)) / 2) * 16))) ∧
  ∀ k ∈ (["uv0", "uv1", "uv2", "uv3"] : List String),
    ent k = some (.vec ⟨(over.fvec k).x,
      if (over.fvec k).y < 0 then -8 * ((mx - mn : ℤ) : ℚ) else 8 * ((mx - mn : ℤ) : ℚ),
      (over.fvec k).z⟩)

/-- Fixture: the all-zero pseudo-random family (every trial succeeds against a
positive chance, every choice picks the first entry). -/
def fx0 : PRNG := fun _ _ => 0

/-- Fixture: an arbitrary incoming global stream state. -/
def fxRng : RngState := ⟨.str "", 0⟩

/-- Fixture: a second incoming global stream state, distinct from `fxRng`. -/
def fxRng2 : RngState := ⟨.num 7, 42⟩

/-- Fixture: a wall-mounted straight antline overlay, 64 units long. -/
def fxOverWall : Entity := fun k =>
  if k = "material" then some (.str Antlines.STRAIGHT)
  else if k = "origin" then some (.vec ⟨0, 0, 0⟩)
  else if k = "basisNormal" then some (.vec ⟨1, 0, 0⟩)
  else if k = "angles" then some (.str "0 0 0")
  else if k = "targetname" then some (.str "antline_toggle")
  else if k = "uv0" then some (.vec ⟨-8, -32, 0⟩)
  else if k = "uv1" then some (.vec ⟨-8, 32, 0⟩)
  else if k = "uv2" then some (.vec ⟨8, 32, 0⟩)
  else if k = "uv3" then some (.vec ⟨8, -32, 0⟩)
  else none

/-- Fixture: the same overlay mounted on a floor (`basisNormal` has a nonzero
vertical component). -/
def fxOverFloor : Entity := fun k =>
  if k = "basisNormal" then some (.vec ⟨0, 0, 1⟩) else fxOverWall k

/-- Fixture: an overlay whose material is not an antline texture. -/
def fxOverBad : Entity := fun k =>
  if k = "material" then some (.str "wood") else fxOverWall k

/-- Fixture geometry: bounds of the 64-unit strip, trivial rotation (so the
lengthwise axis is `y`). -/
def fxGeo : Geo := ⟨fun _ => (⟨-8, -32, 0⟩, ⟨8, 32, 0⟩), fun _ v => v⟩

/-- Fixture style with broken textures and certain brokenness. -/
def fxConf : AntType :=
  ⟨[⟨"st", 0.25, false⟩], [⟨"co", 1, false⟩], [⟨"bst", 0.25, false⟩], [⟨"bco", 1, true⟩], 100⟩

/-- Fixture style with no brokenness. -/
def fxConfPlain : AntType := ⟨[⟨"st", 0.25, false⟩], [⟨"co", 1, false⟩], [], [], 0⟩

/-- Fixture style whose texture lists are all empty. -/
def fxConfEmpty : AntType := ⟨[], [], [], [], 0⟩

instance : DecidableEq (Except String AntTex) := fun a b =>
  match a, b with
  | .error x, .error y => decidable_of_iff (x = y) (by simp)
  | .error _, .ok _ => isFalse (by simp)
  | .ok _, .error _ => isFalse (by simp)
  | .ok x, .ok y => decidable_of_iff (x = y) (by simp)

theorem Entity.set_look_same (e : Entity) (k : String) (v : EntVal) : e.set k v k = some v := by
  simp [Entity.set]

theorem Entity.set_look_ne (e : Entity) (k k' : String) (v : EntVal) (h : k' ≠ k) :
    e.set k v k' = e k' := by
  simp [Entity.set, h]

theorem Entity.del_look_same (e : Entity) (k : String) : e.del k k = none := by
  simp [Entity.del]

theorem Entity.del_look_ne (e : Entity) (k k' : String) (h : k' ≠ k) : e.del k k' = e k' := by
  simp [Entity.del, h]

theorem splitPipeAux_ne_nil (l acc : List Char) : splitPipeAux acc l ≠ [] := by
  induction l generalizing acc with
  | nil => simp [splitPipeAux]
  | cons c r ih =>
    unfold splitPipeAux
    split
    · simp
    · exact ih _

theorem splitPipe_ne_nil (s : String) : splitPipe s ≠ [] := by
  unfold splitPipe
  intro h
  exact splitPipeAux_ne_nil s.toList [] (List.map_eq_nil_iff.mp h)

/-- C2: `style_antline` reseeds the pseudo-random stream from the overlay's
`origin` field before any draw, so the incoming state of the global stream is
irrelevant: for identical overlay fields and identical configurations, any two
invocations choose the same textures, produce the same broken/intact run
pattern, and make the same document changes. -/
theorem claim_C2 (geo : Geo) (F : PRNG) (g1 g2 : RngState) (over : Entity)
    (conf : AntType) (floor_conf : Option AntType) :
    style_antline geo F g1 over conf floor_conf =
      style_antline geo F g2 over conf floor_conf := rfl

/-- C4: `AntType.__init__` with `broken_chance = 0` forces both broken lists
empty regardless of the supplied lists; with a nonzero chance the supplied
broken lists are kept unchanged. -/
theorem claim_C4 (ts tc bs bc : List AntTex) (ch : ℚ) :
    (ch = 0 → (AntType.init ts tc bs bc ch).broken_straight = [] ∧
      (AntType.init ts tc bs bc ch).broken_corner = []) ∧
    (ch ≠ 0 → (AntType.init ts tc bs bc ch).broken_straight = bs ∧
      (AntType.init ts tc bs bc ch).broken_corner = bc) := by
  unfold AntType.init
  by_cases h : ch = 0 <;> simp [h]

theorem claim_C4_witness :
    (AntType.init [] [] [⟨"bs", 1, false⟩] [⟨"bc", 1, false⟩] 0).broken_straight = [] ∧
    (AntType.init [] [] [⟨"bs", 1, false⟩] [⟨"bc", 1, false⟩] 1).broken_straight =
      [⟨"bs", 1, false⟩] :=
  ⟨((claim_C4 [] [] [⟨"bs", 1, false⟩] [⟨"bc", 1, false⟩] 0).1 rfl).1,
   ((claim_C4 [] [] [⟨"bs", 1, false⟩] [⟨"bc", 1, false⟩] 1).2 one_ne_zero).1⟩

/-- C7: `AntTex.apply` sets the overlay's `material` to the entry's texture and
the lengthwise repeat field `endu` to the entry's scale; a static entry removes
`targetname`, and a non-static entry leaves `targetname` and every field other
than `material`/`endu` unchanged. -/
theorem claim_C7 (t : AntTex) (over : Entity) :
    t.apply over "material" = some (.str t.texture) ∧
    t.apply over "endu" = some (.num t.scale) ∧
    (t.static = true → t.apply over "targetname" = none) ∧
    (t.static = false → ∀ k : String, k ≠ "material" → k ≠ "endu" →
      t.apply over k = over k) := by
  cases hs : t.static with
  | false =>
    refine ⟨?_, ?_, by simp [hs], ?_⟩
    · simp [AntTex.apply, hs, Entity.set]
    · simp [AntTex.apply, hs, Entity.set]
    · intro _ k h1 h2
      simp [AntTex.apply, hs, Entity.set, h1, h2]
  | true =>
    refine ⟨?_, ?_, ?_, by simp [hs]⟩
    · simp [AntTex.apply, hs, Entity.set, Entity.del]
    · simp [AntTex.apply, hs, Entity.set, Entity.del]
    · intro _
      simp [AntTex.apply, hs, Entity.del]

theorem claim_C7_witness :
    (AntTex.mk "tex" 1 true).apply fxOverWall "targetname" = none ∧
    (AntTex.mk "tex" 1 false).apply fxOverWall "targetname" = fxOverWall "targetname" :=
  ⟨(claim_C7 ⟨"tex", 1, true⟩ fxOverWall).2.2.1 rfl,
   (claim_C7 ⟨"tex", 1, false⟩ fxOverWall).2.2.2 rfl "targetname" (by decide) (by decide)⟩

/-- C9 counterexample: the scalar `"0.5||static"` has an empty texture segment
in the texture position (no texture at all after the delimiters are consumed),
yet parsing does not fail: it silently produces an entry with an empty texture,
contradicting the claim that malformed scalar strings are parse errors. -/
theorem claim_C9_counterexample :
    AntTex.parse (.scalar "0.5||static") = .ok ⟨"", 0.5, true⟩ := by
  with_unfolding_all decide

/-- C9 amended: scalar parsing never fails.  A `|`-split always yields at least
one segment, so the single-segment unpack (the only error-checking branch)
always succeeds; texture-less scalars silently parse to a defaulted entry. -/
theorem claim_C9 (v : String) : ∃ t, AntTex.parse (.scalar v) = .ok t := by
  have h := splitPipe_ne_nil v
  rcases hs : splitPipe v with _ | ⟨a, _ | ⟨b, _ | ⟨c, r⟩⟩⟩
  · exact absurd hs h
  · exact ⟨⟨a, conv_float "0.25" 0.25, false⟩, by simp [AntTex.parse, hs]⟩
  · exact ⟨⟨b, conv_float a 0.25, false⟩, by simp [AntTex.parse, hs]⟩
  · exact ⟨⟨b, conv_float a 0.25, decide ("static" ∈ c :: r)⟩, by simp [AntTex.parse, hs]⟩

/-- C10: for every `dist ≤ 0` the generator does not raise (it is total) and
yields exactly the single degenerate triple `(0, int(dist), t)` with `t` the
initial Bernoulli draw; in particular `(0, 0, t)` for `dist = 0`. -/
theorem claim_C10 (dist : ℚ) (h : dist ≤ 0) (chance : ℚ) (F : PRNG) (s : RngState) :
    (broken_antline_iter F dist chance s).1 = [(0, pyInt dist, (bern F chance s).1)] := by
  have hp : pyInt dist ≤ 0 := by
    unfold pyInt
    split
    · next h0 =>
      have hq : dist = 0 := le_antisymm h h0
      simp [hq]
    · exact le_trans (Int.ceil_le_ceil h) (by simp)
  have h0 : (pyInt dist - 1).toNat = 0 := by omega
  simp [broken_antline_iter, h0, brokenLoop]

theorem claim_C10_witness :
    (broken_antline_iter fx0 0 50 fxRng).1 = [(0, pyInt 0, (bern fx0 50 fxRng).1)] :=
  claim_C10 0 le_rfl 50 fx0 fxRng

/-- C5: the three compact scalar forms parse to the claimed records; for every
scalar whose split has at least three fields, `static` holds exactly when the
literal flag `"static"` appears among the trailing fields; and the block form
with the corresponding `tex`/`scale`/`static` keys (or defaults) parses to the
same record as the corresponding compact string. -/
theorem claim_C5 :
    AntTex.parse (.scalar "material") = .ok ⟨"material", 0.25, false⟩ ∧
    AntTex.parse (.scalar "0.5|material") = .ok ⟨"material", 0.5, false⟩ ∧
    AntTex.parse (.scalar "0.5|material|static") = .ok ⟨"material", 0.5, true⟩ ∧
    (∀ v : String, 3 ≤ (splitPipe v).length →
      ∃ t, AntTex.parse (.scalar v) = .ok t ∧
        (t.static = true ↔ "static" ∈ (splitPipe v).drop 2)) ∧
    AntTex.parse (.block [("tex", "material")]) = AntTex.parse (.scalar "material") ∧
    AntTex.parse (.block [("tex", "material"), ("scale", "0.5")]) =
      AntTex.parse (.scalar "0.5|material") ∧
    AntTex.parse (.block [("tex", "material"), ("scale", "0.5"), ("static", "1")]) =
      AntTex.parse (.scalar "0.5|material|static") := by
  refine ⟨by with_unfolding_all decide, by with_unfolding_all decide,
    by with_unfolding_all decide, ?_, by with_unfolding_all decide,
    by with_unfolding_all decide, by with_unfolding_all decide⟩
  intro v hv
  rcases hs : splitPipe v with _ | ⟨a, _ | ⟨b, _ | ⟨c, r⟩⟩⟩ <;>
    rw [hs] at hv <;> simp only [List.length] at hv
  · omega
  · omega
  · omega
  · refine ⟨⟨b, conv_float a 0.25, decide ("static" ∈ c :: r)⟩, by simp [AntTex.parse, hs], ?_⟩
    simp [hs]

theorem claim_C5_witness :
    ∃ t, AntTex.parse (.scalar "1|mat|x|static") = .ok t ∧
      (t.static = true ↔ "static" ∈ (splitPipe "1|mat|x|static").drop 2) :=
  claim_C5.2.2.2.1 "1|mat|x|static" (by with_unfolding_all decide)

theorem RunChain.ne_nil {a b : ℕ} {t : Bool} {l : List (ℕ × ℕ × Bool)}
    (h : RunChain a t b l) : l ≠ [] := by
  cases h <;> simp

theorem RunChain.head_fields {a b : ℕ} {t : Bool} {p : ℕ × ℕ × Bool}
    {tl : List (ℕ × ℕ × Bool)} (h : RunChain a t b (p :: tl)) : p.1 = a ∧ p.2.2 = t := by
  cases h <;> simp

theorem RunChain.last_end {a b : ℕ} {t : Bool} {l : List (ℕ × ℕ × Bool)}
    (h : RunChain a t b l) : ∀ p, l.getLast? = some p → p.2.1 = b := by
  induction h with
  | single a b t hab =>
    intro p hp
    simp at hp
    subst hp
    rfl
  | cons a m b t u l ham htu hrest ih =>
    intro p hp
    rcases l with _ | ⟨q, l'⟩
    · exact absurd rfl hrest.ne_nil
    · rw [List.getLast?_cons_cons] at hp
      exact ih p hp

theorem RunChain.mem_bounds {a b : ℕ} {t : Bool} {l : List (ℕ × ℕ × Bool)}
    (h : RunChain a t b l) : ∀ r ∈ l, a ≤ r.1 ∧ r.1 < r.2.1 ∧ r.2.1 ≤ b := by
  induction h with
  | single a b t hab =>
    intro r hr
    simp at hr
    simp [hr, hab]
  | cons a m b t u l ham htu hrest ih =>
    intro r hr
    rcases List.mem_cons.mp hr with h1 | h2
    · subst h1
      refine ⟨le_refl _, ham, ?_⟩
      rcases l with _ | ⟨q, l'⟩
      · exact absurd rfl hrest.ne_nil
      · have hq := ih q (List.mem_cons_self q l')
        have hh := (RunChain.head_fields hrest).1
        show m ≤ b
        omega
    · have := ih r h2
      exact ⟨by omega, this.2⟩

theorem RunChain.contig {a b : ℕ} {t : Bool} {l : List (ℕ × ℕ × Bool)}
    (h : RunChain a t b l) : l.Chain' (fun p q => p.2.1 = q.1) := by
  induction h with
  | single a b t hab => simp
  | cons a m b t u l ham htu hrest ih =>
    rcases l with _ | ⟨q, l'⟩
    · simp
    · exact List.Chain'.cons (RunChain.head_fields hrest).1.symm ih

theorem RunChain.alt {a b : ℕ} {t : Bool} {l : List (ℕ × ℕ × Bool)}
    (h : RunChain a t b l) : l.Chain' (fun p q => p.2.2 ≠ q.2.2) := by
  induction h with
  | single a b t hab => simp
  | cons a m b t u l ham htu hrest ih =>
    rcases l with _ | ⟨q, l'⟩
    · simp
    · refine List.Chain'.cons ?_ ih
      show t ≠ q.2.2
      rw [(RunChain.head_fields hrest).2]
      exact htu

theorem RunChain.pairwise_lt {a b : ℕ} {t : Bool} {l : List (ℕ × ℕ × Bool)}
    (h : RunChain a t b l) : l.Pairwise (fun p q => p.1 < q.1) := by
  induction h with
  | single a b t hab => simp
  | cons a m b t u l ham htu hrest ih =>
    refine List.Pairwise.cons ?_ ih
    intro q hq
    have := RunChain.mem_bounds hrest q hq
    show a < q.1
    omega

theorem RunChain.sum_len {a b : ℕ} {t : Bool} {l : List (ℕ × ℕ × Bool)}
    (h : RunChain a t b l) :
    (l.map fun r => ((r.2.1 : ℤ) - (r.1 : ℤ))).sum = (b : ℤ) - (a : ℤ) := by
  induction h with
  | single a b t hab => simp
  | cons a m b t u l ham htu hrest ih =>
    simp only [List.map_cons, List.sum_cons, ih]
    omega

theorem RunChain.cover {a b : ℕ} {t : Bool} {l : List (ℕ × ℕ × Bool)}
    (h : RunChain a t b l) : ∀ x : ℕ, a ≤ x → x < b → ∃ r ∈ l, r.1 ≤ x ∧ x < r.2.1 := by
  induction h with
  | single a b t hab =>
    intro x h1 h2
    exact ⟨(a, b, t), by simp, h1, h2⟩
  | cons a m b t u l ham htu hrest ih =>
    intro x h1 h2
    by_cases hx : x < m
    · exact ⟨(a, m, t), List.mem_cons_self _ _, h1, hx⟩
    · obtain ⟨r, hr, hle, hlt⟩ := ih x (by omega) h2
      exact ⟨r, List.mem_cons_of_mem _ hr, hle, hlt⟩

theorem brokenLoop_chain (F : PRNG) (chance : ℚ) :
    ∀ (k i rs : ℕ) (last : Bool) (s : RngState), rs < i →
      RunChain rs last (i + k) (closeRuns (brokenLoop F chance k i rs last s) (i + k)) := by
  intro k
  induction k with
  | zero =>
    intro i rs last s h
    exact RunChain.single rs (i + 0) last (by omega)
  | succ k ih =>
    intro i rs last s h
    have he : i + (k + 1) = (i + 1) + k := by omega
    rw [he]
    by_cases hb : (bern F chance s).1 ≠ last
    · have hrw : closeRuns (brokenLoop F chance (k + 1) i rs last s) ((i + 1) + k) =
          (rs, i, last) ::
            closeRuns (brokenLoop F chance k (i + 1) i (bern F chance s).1 (bern F chance s).2)
              ((i + 1) + k) := by
        simp only [brokenLoop]
        rw [if_pos hb]
        rfl
      rw [hrw]
      exact RunChain.cons rs i ((i + 1) + k) last (bern F chance s).1 _ h (Ne.symm hb)
        (ih (i + 1) i (bern F chance s).1 (bern F chance s).2 (Nat.lt_succ_self i))
    · have hrw : closeRuns (brokenLoop F chance (k + 1) i rs last s) ((i + 1) + k) =
          closeRuns (brokenLoop F chance k (i + 1) rs last (bern F chance s).2)
            ((i + 1) + k) := by
        simp only [brokenLoop]
        rw [if_neg hb]
      rw [hrw]
      exact ih (i + 1) rs last (bern F chance s).2 (by omega)

theorem pyInt_intCast (n : ℤ) : pyInt (n : ℚ) = n := by
  unfold pyInt
  split <;> simp

theorem iter_runs_eq (F : PRNG) (chance : ℚ) (s : RngState) (n : ℤ) (hn : 1 ≤ n) :
    (broken_antline_iter F (n : ℚ) chance s).1 =
      (closeRuns
          (brokenLoop F chance (n - 1).toNat 1 0 (bern F chance s).1 (bern F chance s).2)
          (1 + (n - 1).toNat)).map
        (fun q => ((q.1 : ℤ), (q.2.1 : ℤ), q.2.2)) := by
  have hd : pyInt (n : ℚ) = n := pyInt_intCast n
  have he : ((1 + (n - 1).toNat : ℕ) : ℤ) = n := by omega
  simp only [broken_antline_iter, hd, closeRuns, List.map_append, List.map_cons, List.map_nil]
  rw [he]

theorem runChain_cast_props {t : Bool} {E : ℕ} {C : List (ℕ × ℕ × Bool)} {n : ℤ}
    (hch : RunChain 0 t E C) (hE : (E : ℤ) = n) :
    (C.map fun q => ((q.1 : ℤ), (q.2.1 : ℤ), q.2.2)) ≠ [] ∧
    (∃ p, (C.map fun q => ((q.1 : ℤ), (q.2.1 : ℤ), q.2.2)).head? = some p ∧ p.1 = 0) ∧
    (∃ q, (C.map fun q => ((q.1 : ℤ), (q.2.1 : ℤ), q.2.2)).getLast? = some q ∧ q.2.1 = n) ∧
    (∀ r ∈ C.map fun q => ((q.1 : ℤ), (q.2.1 : ℤ), q.2.2),
      0 ≤ r.1 ∧ r.1 < r.2.1 ∧ r.2.1 ≤ n) ∧
    List.Chain' (fun p q => p.2.1 = q.1) (C.map fun q => ((q.1 : ℤ), (q.2.1 : ℤ), q.2.2)) ∧
    List.Chain' (fun p q => p.2.2 ≠ q.2.2) (C.map fun q => ((q.1 : ℤ), (q.2.1 : ℤ), q.2.2)) ∧
    List.Pairwise (fun p q => p.1 < q.1) (C.map fun q => ((q.1 : ℤ), (q.2.1 : ℤ), q.2.2)) ∧
    ((C.map fun q => ((q.1 : ℤ), (q.2.1 : ℤ), q.2.2)).map fun r => r.2.1 - r.1).sum = n ∧
    (∀ x : ℤ, 0 ≤ x → x < n →
      ∃ r ∈ C.map fun q => ((q.1 : ℤ), (q.2.1 : ℤ), q.2.2), r.1 ≤ x ∧ x < r.2.1) := by
  refine ⟨by simpa using hch.ne_nil, ?_, ?_, ?_, ?_, ?_, ?_, ?_, ?_⟩
  · obtain ⟨p0, tl, rfl⟩ : ∃ p0 tl, C = p0 :: tl := by
      rcases C with _ | ⟨p0, tl⟩
      · exact absurd rfl hch.ne_nil
      · exact ⟨p0, tl, rfl⟩
    refine ⟨((p0.1 : ℤ), (p0.2.1 : ℤ), p0.2.2), by simp, ?_⟩
    show (p0.1 : ℤ) = 0
    have := hch.head_fields.1
    omega
  · obtain ⟨q, hq⟩ : ∃ q, C.getLast? = some q :=
      Option.isSome_iff_exists.mp (List.getLast?_isSome.mpr hch.ne_nil)
    refine ⟨((q.1 : ℤ), (q.2.1 : ℤ), q.2.2), ?_, ?_⟩
    · rw [List.getLast?_map, hq]
      rfl
    · have := hch.last_end q hq
      show (q.2.1 : ℤ) = n
      omega
  · intro r hr
    obtain ⟨w, hw, rfl⟩ := List.mem_map.mp hr
    obtain ⟨h1, h2, h3⟩ := hch.mem_bounds w hw
    refine ⟨?_, ?_, ?_⟩
    · show (0 : ℤ) ≤ (w.1 : ℤ)
      omega
    · show (w.1 : ℤ) < (w.2.1 : ℤ)
      omega
    · show (w.2.1 : ℤ) ≤ n
      omega
  · rw [List.chain'_map]
    refine hch.contig.imp ?_
    intro a b h
    show (a.2.1 : ℤ) = (b.1 : ℤ)
    omega
  · rw [List.chain'_map]
    refine hch.alt.imp ?_
    intro a b h
    exact h
  · rw [List.pairwise_map]
    refine hch.pairwise_lt.imp ?_
    intro a b h
    show (a.1 : ℤ) < (b.1 : ℤ)
    omega
  · rw [List.map_map]
    have hcomp : ((fun r : ℤ × ℤ × Bool => r.2.1 - r.1) ∘ fun q : ℕ × ℕ × Bool =>
        ((q.1 : ℤ), (q.2.1 : ℤ), q.2.2)) =
        fun r : ℕ × ℕ × Bool => ((r.2.1 : ℤ) - (r.1 : ℤ)) := rfl
    rw [hcomp, hch.sum_len]
    omega
  · intro x hx0 hxn
    obtain ⟨r, hr, h1, h2⟩ := hch.cover x.toNat (Nat.zero_le _) (by omega)
    refine ⟨((r.1 : ℤ), (r.2.1 : ℤ), r.2.2), List.mem_map_of_mem _ hr, ?_, ?_⟩
    · show (r.1 : ℤ) ≤ x
      omega
    · show x < (r.2.1 : ℤ)
      omega

/-- C1: for every integer `cell_count ≥ 1` and every chance (and every
pseudo-random stream), the run list produced by `broken_antline_iter` is
nonempty, starts at 0, ends at `cell_count`, consists of nonempty runs inside
`[0, cell_count]`, is contiguous (each run's end is the next run's start, hence
no gaps or overlaps), alternates the `is_broken` tag between adjacent runs, is
ordered by start ascending, has run lengths summing to exactly `cell_count`,
and covers every cell of `[0, cell_count)`. -/
theorem claim_C1 (n : ℤ) (hn : 1 ≤ n) (chance : ℚ) (F : PRNG) (s : RngState) :
    (broken_antline_iter F (n : ℚ) chance s).1 ≠ [] ∧
    (∃ p, (broken_antline_iter F (n : ℚ) chance s).1.head? = some p ∧ p.1 = 0) ∧
    (∃ q, (broken_antline_iter F (n : ℚ) chance s).1.getLast? = some q ∧ q.2.1 = n) ∧
    (∀ r ∈ (broken_antline_iter F (n : ℚ) chance s).1, 0 ≤ r.1 ∧ r.1 < r.2.1 ∧ r.2.1 ≤ n) ∧
    List.Chain' (fun p q => p.2.1 = q.1) (broken_antline_iter F (n : ℚ) chance s).1 ∧
    List.Chain' (fun p q => p.2.2 ≠ q.2.2) (broken_antline_iter F (n : ℚ) chance s).1 ∧
    List.Pairwise (fun p q => p.1 < q.1) (broken_antline_iter F (n : ℚ) chance s).1 ∧
    ((broken_antline_iter F (n : ℚ) chance s).1.map fun r => r.2.1 - r.1).sum = n ∧
    (∀ x : ℤ, 0 ≤ x → x < n →
      ∃ r ∈ (broken_antline_iter F (n : ℚ) chance s).1, r.1 ≤ x ∧ x < r.2.1) := by
  have hch := brokenLoop_chain F chance (n - 1).toNat 1 0 (bern F chance s).1
    (bern F chance s).2 Nat.one_pos
  have hE : ((1 + (n - 1).toNat : ℕ) : ℤ) = n := by omega
  rw [iter_runs_eq F chance s n hn]
  exact runChain_cast_props hch hE

theorem claim_C1_witness :
    ((broken_antline_iter (fun _ i => i) ((3 : ℤ) : ℚ) 50 fxRng).1.map
        fun r => r.2.1 - r.1).sum = 3 := by
  have h := claim_C1 3 (by decide) 50 (fun _ i => i) fxRng
  exact h.2.2.2.2.2.2.2.1

theorem AntTex.apply_look_ne (t : AntTex) (e : Entity) (k : String)
    (h1 : k ≠ "material") (h2 : k ≠ "endu") (h3 : k ≠ "targetname") :
    t.apply e k = e k := by
  cases hs : t.static <;>
    simp [AntTex.apply, hs, Entity.set, Entity.del, h1, h2, h3]

theorem Entity.fvec_set_ne (e : Entity) (k k' : String) (v : EntVal) (h : k' ≠ k) :
    (e.set k v).fvec k' = e.fvec k' := by
  simp [Entity.fvec, Entity.set, h]

theorem uvRewrite_look_ne (e : Entity) (len : ℚ) (k : String)
    (h0 : k ≠ "uv0") (h1 : k ≠ "uv1") (h2 : k ≠ "uv2") (h3 : k ≠ "uv3") :
    uvRewrite e len k = e k := by
  simp [uvRewrite, uvFix, Entity.set, h0, h1, h2, h3]

theorem uvRewrite_look_uv (e : Entity) (len : ℚ) (k : String)
    (hk : k ∈ (["uv0", "uv1", "uv2", "uv3"] : List String)) :
    uvRewrite e len k = some (.vec ⟨(e.fvec k).x,
      if (e.fvec k).y < 0 then -8 * len else 8 * len, (e.fvec k).z⟩) := by
  simp only [List.mem_cons, List.not_mem_nil, or_false] at hk
  rcases hk with rfl | rfl | rfl | rfl <;>
    simp [uvRewrite, uvFix, Entity.set, Entity.fvec]

theorem mkSection_spec (F : PRNG) (over : Entity) (ax : Axis) (minO : Vec3Q)
    (sect_mats : List AntTex) (hm : sect_mats ≠ []) (mn mx : ℤ) (s : RngState) :
    ∃ ent s', mkSection F over ax minO sect_mats mn mx s = .ok (ent, s') ∧
      SectionFields over ax minO mn mx ent := by
  rcases sect_mats with _ | ⟨t0, ts⟩
  · exact absurd rfl hm
  · refine ⟨_, _, rfl, ?_, ?_, ?_, ?_⟩
    · simp [AntTex.apply_look_ne, uvRewrite_look_ne, Entity.set_look_ne, Entity.set_look_same]
    · simp [AntTex.apply_look_ne, uvRewrite_look_ne, Entity.set_look_same]
    · simp [AntTex.apply_look_ne, uvRewrite_look_ne, Entity.set_look_ne, Entity.set_look_same]
    · intro k hk
      simp only [List.mem_cons, List.not_mem_nil, or_false] at hk
      rcases hk with rfl | rfl | rfl | rfl <;>
        rw [AntTex.apply_look_ne _ _ _ (by decide) (by decide) (by decide),
          uvRewrite_look_uv _ _ _ (by decide),
          Entity.fvec_set_ne _ _ _ _ (by decide), Entity.fvec_set_ne _ _ _ _ (by decide),
          Entity.fvec_set_ne _ _ _ _ (by decide)]

theorem fragLoop_spec (F : PRNG) (chance : ℚ) (over : Entity) (ax : Axis) (minO : Vec3Q)
    (mats broken_mats : List AntTex) (hm : mats ≠ []) (hb : broken_mats ≠ [])
    (dEnd : ℤ) :
    ∀ (k i rs : ℕ) (last : Bool) (s : RngState),
      ∃ l s', fragLoop F chance over ax minO mats broken_mats dEnd k i rs last s =
        .ok (l, s') ∧ ∀ p ∈ l, SectionFields over ax minO p.1.1 p.1.2.1 p.2 := by
  intro k
  induction k with
  | zero =>
    intro i rs last s
    obtain ⟨ent, s', hmk, hsf⟩ := mkSection_spec F over ax minO
      (if last then broken_mats else mats) (by cases last <;> simp [hm, hb]) (rs : ℤ) dEnd s
    refine ⟨[(((rs : ℤ), dEnd, last), ent)], s', ?_, ?_⟩
    · simp only [fragLoop]
      rw [hmk]
    · intro p hp
      simp at hp
      subst hp
      exact hsf
  | succ k ih =>
    intro i rs last s
    by_cases hbr : (bern F chance s).1 ≠ last
    · obtain ⟨ent, s2, hmk, hsf⟩ := mkSection_spec F over ax minO
        (if last then broken_mats else mats) (by cases last <;> simp [hm, hb]) (rs : ℤ) (i : ℤ)
        (bern F chance s).2
      obtain ⟨l, s3, hrec, hsecs⟩ := ih (i + 1) i (bern F chance s).1 s2
      refine ⟨(((rs : ℤ), (i : ℤ), last), ent) :: l, s3, ?_, ?_⟩
      · simp only [fragLoop]
        rw [if_pos hbr]
        simp only [hmk]
        simp only [hrec]
      · intro p hp
        rcases List.mem_cons.mp hp with h1 | h2
        · subst h1
          exact hsf
        · exact hsecs p h2
    · obtain ⟨l, s', hrec, hsecs⟩ := ih (i + 1) rs last (bern F chance s).2
      refine ⟨l, s', ?_, hsecs⟩
      simp only [fragLoop]
      rw [if_neg hbr, hrec]

theorem fragLoop_ne_error (F : PRNG) (chance : ℚ) (over : Entity) (ax : Axis) (minO : Vec3Q)
    (mats broken_mats : List AntTex) (hm : mats ≠ []) (hb : broken_mats ≠ [])
    (dEnd : ℤ) (k i rs : ℕ) (last : Bool) (s : RngState) (msg : String) :
    fragLoop F chance over ax minO mats broken_mats dEnd k i rs last s ≠ .error msg := by
  obtain ⟨l, s', hfl, -⟩ :=
    fragLoop_spec F chance over ax minO mats broken_mats hm hb dEnd k i rs last s
  rw [hfl]
  simp

theorem rchoice_ok (F : PRNG) (l : List AntTex) (hl : l ≠ []) (s : RngState) :
    ∃ t s', rchoice F l s = .ok (t, s') := by
  rcases l with _ | ⟨x, xs⟩
  · exact absurd rfl hl
  · exact ⟨_, _, rfl⟩

theorem finalChoice_ok (F : PRNG) (over : Entity) (mats : List AntTex) (hm : mats ≠ [])
    (s : RngState) : ∃ r, finalChoice F over mats s = .ok r := by
  obtain ⟨t, s', hr⟩ := rchoice_ok F mats hm s
  refine ⟨⟨[], some (t.apply over), s'⟩, ?_⟩
  unfold finalChoice
  rw [hr]

theorem styleRest_frag (geo : Geo) (F : PRNG) (over : Entity) (c : AntType)
    (mats broken_mats : List AntTex) (s0 : RngState)
    (hch : c.broken_chance ≠ 0)
    (hlen : 48 < ((geo.bounds over).2.sub (geo.bounds over).1).maxComp)
    (hm : mats ≠ []) (hb : broken_mats ≠ []) :
    ∃ l s', styleRest geo F over c mats broken_mats s0 = .ok ⟨l, none, s'⟩ ∧
      ∀ p ∈ l, SectionFields over ((geo.rotate (over.look "angles") ⟨0, 1, 0⟩).axis)
        ((over.fvec "origin").setAx ((geo.rotate (over.look "angles") ⟨0, 1, 0⟩).axis)
          ((over.fvec "origin").getAx ((geo.rotate (over.look "angles") ⟨0, 1, 0⟩).axis) -
            ((geo.bounds over).2.sub (geo.bounds over).1).maxComp / 2))
        p.1.1 p.1.2.1 p.2 := by
  obtain ⟨l, s', hfl, hsec⟩ := fragLoop_spec F c.broken_chance over
    ((geo.rotate (over.look "angles") ⟨0, 1, 0⟩).axis)
    ((over.fvec "origin").setAx ((geo.rotate (over.look "angles") ⟨0, 1, 0⟩).axis)
      ((over.fvec "origin").getAx ((geo.rotate (over.look "angles") ⟨0, 1, 0⟩).axis) -
        ((geo.bounds over).2.sub (geo.bounds over).1).maxComp / 2))
    mats broken_mats hm hb
    ⌊((geo.bounds over).2.sub (geo.bounds over).1).maxComp / 16⌋
    ((⌊((geo.bounds over).2.sub (geo.bounds over).1).maxComp / 16⌋ - 1).toNat) 1 0
    (bern F c.broken_chance s0).1 (bern F c.broken_chance s0).2
  refine ⟨l, s', ?_, hsec⟩
  simp only [styleRest]
  rw [if_pos hch, if_neg (not_le.mpr hlen), hfl]

theorem styleRest_ok (geo : Geo) (F : PRNG) (over : Entity) (c : AntType)
    (mats broken_mats : List AntTex) (hm : mats ≠ []) (hb : broken_mats ≠ [])
    (s0 : RngState) : ∃ r, styleRest geo F over c mats broken_mats s0 = .ok r := by
  by_cases hch : c.broken_chance ≠ 0
  · by_cases hlen : ((geo.bounds over).2.sub (geo.bounds over).1).maxComp ≤ 48
    · obtain ⟨r, hr⟩ := finalChoice_ok F over
        (if (bern F c.broken_chance s0).1 then broken_mats else mats)
        (by split <;> assumption) (bern F c.broken_chance s0).2
      refine ⟨r, ?_⟩
      simp only [styleRest]
      rw [if_pos hch, if_pos hlen, hr]
    · obtain ⟨l, s', hok, -⟩ := styleRest_frag geo F over c mats broken_mats s0 hch
        (not_le.mp hlen) hm hb
      exact ⟨_, hok⟩
  · obtain ⟨r, hr⟩ := finalChoice_ok F over mats hm s0
    refine ⟨r, ?_⟩
    simp only [styleRest]
    rw [if_neg hch, hr]

theorem Vec3Q.getAx_setAx (v : Vec3Q) (ax : Axis) (q : ℚ) : (v.setAx ax q).getAx ax = q := by
  cases ax <;> rfl

theorem Vec3Q.setAx_setAx (v : Vec3Q) (ax : Axis) (q q' : ℚ) :
    (v.setAx ax q).setAx ax q' = v.setAx ax q' := by
  cases ax <;> rfl

theorem sectionFields_origin_shift (over : Entity) (ax : Axis) (len : ℚ) (mn mx : ℤ)
    (ent : Entity)
    (h : SectionFields over ax ((over.fvec "origin").setAx ax
      ((over.fvec "origin").getAx ax - len / 2)) mn mx ent) :
    ent "origin" = some (.vec ((over.fvec "origin").setAx ax
      ((over.fvec "origin").getAx ax + ((((mn : ℚ) + (mx : ℚ)) / 2) * 16 - len / 2)))) := by
  have h2 := h.2.1
  rw [Vec3Q.setAx_setAx, Vec3Q.getAx_setAx] at h2
  rw [show (over.fvec "origin").getAx ax - len / 2 + (((mn : ℚ) + (mx : ℚ)) / 2) * 16 =
      (over.fvec "origin").getAx ax + ((((mn : ℚ) + (mx : ℚ)) / 2) * 16 - len / 2) from
    by ring] at h2
  exact h2

/-- C3 amended: in the fragmentation branch (classification succeeded, nonzero
broken chance, `length > 48`), *provided the classified intact and broken
texture lists are both nonempty* (the Python `random.choice` raises on an empty
list, aborting the branch midway), the call succeeds, the original overlay is
removed and never retextured, and every generated run carries exactly one clone
whose `startV` is the run length, whose `origin` and `basisorigin` are the
original origin shifted along the lengthwise axis by
`(sect_min + sect_max)/2 * 16 - length/2`, and whose four uv corners have their
lengthwise (`y`) coordinate rewritten to magnitude `8 * run length` with the
original coordinate's sign (non-negative coordinates stay non-negative). -/
theorem claim_C3 (geo : Geo) (F : PRNG) (g : RngState) (over : Entity) (conf : AntType)
    (floor_conf : Option AntType) (c : AntType) (mats broken_mats : List AntTex)
    (hsel : (if (over.fvec "basisNormal").z ≠ 0 then floor_conf else some conf) = some c)
    (hclass : over.fstr "material" = Antlines.STRAIGHT ∧ mats = c.tex_straight ∧
        broken_mats = c.broken_straight ∨
      over.fstr "material" = Antlines.CORNER ∧ mats = c.tex_corner ∧
        broken_mats = c.broken_corner)
    (hch : 0 < c.broken_chance)
    (hlen : 48 < ((geo.bounds over).2.sub (geo.bounds over).1).maxComp)
    (hm : mats ≠ []) (hbm : broken_mats ≠ []) :
    ∃ r, style_antline geo F g over conf floor_conf = .ok r ∧
      r.survivor = none ∧
      ∀ p ∈ r.sections,
        p.2 "startV" = some (.num ((p.1.2.1 - p.1.1 : ℤ) : ℚ)) ∧
        p.2 "origin" = some (.vec ((over.fvec "origin").setAx
          ((geo.rotate (over.look "angles") ⟨0, 1, 0⟩).axis)
          ((over.fvec "origin").getAx ((geo.rotate (over.look "angles") ⟨0, 1, 0⟩).axis) +
            ((((p.1.1 : ℚ) + (p.1.2.1 : ℚ)) / 2) * 16 -
              ((geo.bounds over).2.sub (geo.bounds over).1).maxComp / 2)))) ∧
        p.2 "basisorigin" = p.2 "origin" ∧
        ∀ k ∈ (["uv0", "uv1", "uv2", "uv3"] : List String),
          p.2 k = some (.vec ⟨(over.fvec k).x,
            if (over.fvec k).y < 0 then -8 * ((p.1.2.1 - p.1.1 : ℤ) : ℚ)
            else 8 * ((p.1.2.1 - p.1.1 : ℤ) : ℚ),
            (over.fvec k).z⟩) := by
  obtain ⟨l, s', hok, hsec⟩ := styleRest_frag geo F over c mats broken_mats
    ⟨over.look "origin", 0⟩ hch.ne' hlen hm hbm
  have hstyle : style_antline geo F g over conf floor_conf =
      styleRest geo F over c mats broken_mats ⟨over.look "origin", 0⟩ := by
    rcases hclass with ⟨hmat, hmats, hbms⟩ | ⟨hmat, hmats, hbms⟩
    · simp only [style_antline]
      rw [if_pos hmat, hsel, hmats, hbms]
    · simp only [style_antline]
      rw [if_neg (by rw [hmat]; decide), if_pos hmat, hsel, hmats, hbms]
  refine ⟨⟨l, none, s'⟩, by rw [hstyle, hok], rfl, ?_⟩
  intro p hp
  obtain ⟨h1, h2, h3, h4⟩ := hsec p hp
  refine ⟨h1, ?_, ?_, h4⟩
  · exact sectionFields_origin_shift over _ _ _ _ _ ⟨h1, h2, h3, h4⟩
  · rw [h3, h2]

/-- C3 counterexample (to the claim as frozen): all of the claim's stated
hypotheses hold — the material is the straight antline texture, the broken
chance is positive (100), and `length = 64 > 48` — yet with an empty broken
texture list (which `AntType.__init__` keeps when `broken_chance ≠ 0`) the
fragmentation branch fails on `random.choice` of an empty sequence instead of
producing one clone per run and removing the original. -/
theorem claim_C3_counterexample :
    fxOverWall.fstr "material" = Antlines.STRAIGHT ∧
    (0 : ℚ) < (AntType.init [⟨"st", 0.25, false⟩] [⟨"co", 1, false⟩] [] [] 100).broken_chance ∧
    48 < ((fxGeo.bounds fxOverWall).2.sub (fxGeo.bounds fxOverWall).1).maxComp ∧
    style_antline fxGeo fx0 fxRng fxOverWall
      (AntType.init [⟨"st", 0.25, false⟩] [⟨"co", 1, false⟩] [] [] 100)
      (some (AntType.init [⟨"st", 0.25, false⟩] [⟨"co", 1, false⟩] [] [] 100)) =
      .error "Cannot choose from an empty sequence" :=
  ⟨by with_unfolding_all rfl, by with_unfolding_all decide, by with_unfolding_all decide,
    by with_unfolding_all rfl⟩

theorem claim_C3_witness :
    ∃ r, style_antline fxGeo fx0 fxRng fxOverWall fxConf (some fxConf) = .ok r ∧
      r.survivor = none := by
  obtain ⟨r, hok, hsur, -⟩ := claim_C3 fxGeo fx0 fxRng fxOverWall fxConf (some fxConf) fxConf
    fxConf.tex_straight fxConf.broken_straight (by with_unfolding_all rfl)
    (Or.inl ⟨by with_unfolding_all rfl, rfl, rfl⟩) (by with_unfolding_all decide)
    (by with_unfolding_all decide) (by with_unfolding_all decide) (by with_unfolding_all decide)
  exact ⟨r, hok, hsur⟩

/-- C6 amended: provided the selected configuration is present (not the absent
`None` floor config) and its four texture lists are nonempty, `style_antline`
fails if and only if the overlay's material is neither the straight nor the
corner antline texture, and in that case the error is exactly
`'"<material>" is not an antline!'`, containing the offending material (the
classification check precedes every mutation, so a failing call changes
nothing).  Without the nonempty-list proviso the claim's "only if" direction is
false, see the counterexample. -/
theorem claim_C6 (geo : Geo) (F : PRNG) (g : RngState) (over : Entity) (conf : AntType)
    (floor_conf : Option AntType) (c : AntType)
    (hsel : (if (over.fvec "basisNormal").z ≠ 0 then floor_conf else some conf) = some c)
    (h1 : c.tex_straight ≠ []) (h2 : c.tex_corner ≠ [])
    (h3 : c.broken_straight ≠ []) (h4 : c.broken_corner ≠ []) :
    ((∃ msg, style_antline geo F g over conf floor_conf = .error msg) ↔
      over.fstr "material" ≠ Antlines.STRAIGHT ∧ over.fstr "material" ≠ Antlines.CORNER) ∧
    (over.fstr "material" ≠ Antlines.STRAIGHT → over.fstr "material" ≠ Antlines.CORNER →
      style_antline geo F g over conf floor_conf =
        .error ("\"" ++ over.fstr "material" ++ "\" is not an antline!")) := by
  by_cases hS : over.fstr "material" = Antlines.STRAIGHT
  · have heq : style_antline geo F g over conf floor_conf =
        styleRest geo F over c c.tex_straight c.broken_straight ⟨over.look "origin", 0⟩ := by
      simp only [style_antline]
      rw [if_pos hS, hsel]
    obtain ⟨r, hr⟩ := styleRest_ok geo F over c c.tex_straight c.broken_straight h1 h3
      ⟨over.look "origin", 0⟩
    constructor
    · rw [heq, hr]
      simp [hS]
    · intro hS' _
      exact absurd hS hS'
  · by_cases hC : over.fstr "material" = Antlines.CORNER
    · have heq : style_antline geo F g over conf floor_conf =
          styleRest geo F over c c.tex_corner c.broken_corner ⟨over.look "origin", 0⟩ := by
        simp only [style_antline]
        rw [if_neg hS, if_pos hC, hsel]
      obtain ⟨r, hr⟩ := styleRest_ok geo F over c c.tex_corner c.broken_corner h2 h4
        ⟨over.look "origin", 0⟩
      constructor
      · rw [heq, hr]
        simp [hC]
      · intro _ hC'
        exact absurd hC hC'
    · have heq : style_antline geo F g over conf floor_conf =
          .error ("\"" ++ over.fstr "material" ++ "\" is not an antline!") := by
        simp only [style_antline]
        rw [if_neg hS, if_neg hC]
      exact ⟨⟨fun _ => ⟨hS, hC⟩, fun _ => ⟨_, heq⟩⟩, fun _ _ => heq⟩

/-- C6 counterexample (to the claim as frozen): with a recognized straight
material but an all-empty configuration, `style_antline` still fails (on
`random.choice` of the empty texture list), so "fails iff the material is
unrecognized" is false as stated. -/
theorem claim_C6_counterexample :
    fxOverWall.fstr "material" = Antlines.STRAIGHT ∧
    style_antline fxGeo fx0 fxRng fxOverWall fxConfEmpty (some fxConfEmpty) =
      .error "Cannot choose from an empty sequence" :=
  ⟨by with_unfolding_all rfl, by with_unfolding_all rfl⟩

theorem claim_C6_witness :
    style_antline fxGeo fx0 fxRng fxOverBad fxConf (some fxConf) =
      .error ("\"" ++ fxOverBad.fstr "material" ++ "\" is not an antline!") := by
  have h := claim_C6 fxGeo fx0 fxRng fxOverBad fxConf (some fxConf) fxConf
    (by with_unfolding_all rfl) (by with_unfolding_all decide) (by with_unfolding_all decide)
    (by with_unfolding_all decide) (by with_unfolding_all decide)
  exact h.2 (by with_unfolding_all decide) (by with_unfolding_all decide)

/-- C8 amended: if the overlay's `basisNormal` has a nonzero vertical
component, `floor_conf` is used in place of `conf` for the rest of the call
(the result does not depend on `conf` at all), and if it is zero, `conf` stays
selected (the result does not depend on `floor_conf`).  The claim's "absent
`floor_conf` is a no-op" clause is false: the substitution is unconditional,
so an absent (`None`) floor config with a recognized material makes the call
fail with an attribute error instead of keeping `conf`. -/
theorem claim_C8 (geo : Geo) (F : PRNG) (g : RngState) (over : Entity)
    (conf c1 c2 : AntType) (fc f1 f2 : Option AntType) :
    ((over.fvec "basisNormal").z ≠ 0 →
      style_antline geo F g over c1 fc = style_antline geo F g over c2 fc) ∧
    ((over.fvec "basisNormal").z = 0 →
      style_antline geo F g over conf f1 = style_antline geo F g over conf f2) ∧
    ((over.fvec "basisNormal").z ≠ 0 → over.fstr "material" = Antlines.STRAIGHT →
      style_antline geo F g over conf none =
        .error "AttributeError: NoneType object has no attribute tex_straight") := by
  refine ⟨?_, ?_, ?_⟩
  · intro hz
    simp only [style_antline]
    simp only [if_pos hz]
  · intro hz
    have hz' : ¬((over.fvec "basisNormal").z ≠ 0) := by simp [hz]
    simp only [style_antline]
    simp only [if_neg hz']
  · intro hz hmat
    simp only [style_antline]
    simp only [if_pos hz]
    rw [if_pos hmat]

/-- C8 counterexample (to the claim as frozen): a floor overlay (`z ≠ 0`) with
an absent floor config does not keep `conf` selected — the call fails, whereas
passing the same `conf` as the floor config succeeds. -/
theorem claim_C8_counterexample :
    style_antline fxGeo fx0 fxRng fxOverFloor fxConfPlain none =
      .error "AttributeError: NoneType object has no attribute tex_straight" ∧
    (∃ r, style_antline fxGeo fx0 fxRng fxOverFloor fxConfPlain (some fxConfPlain) = .ok r) :=
  ⟨by with_unfolding_all rfl, ⟨_, by with_unfolding_all rfl⟩⟩

theorem claim_C8_witness :
    style_antline fxGeo fx0 fxRng fxOverFloor fxConfPlain (some fxConf) =
      style_antline fxGeo fx0 fxRng fxOverFloor fxConf (some fxConf) := by
  have h := claim_C8 fxGeo fx0 fxRng fxOverFloor fxConfPlain fxConfPlain fxConf
    (some fxConf) (some fxConf) (some fxConf)
  exact h.1 (by with_unfolding_all decide)
